import Mathlib

/-!
Verification of the mcp-chatbot repository (Express MCP server +
Angular client façade).  The TypeScript source is shallowly embedded:
JavaScript strings become `List Char` / `String`, the keyed objects
`transports` / `sseClients` become association lists, JS numbers are
modelled as rationals (exact arithmetic), and the random values drawn
by the simulated tools are passed in explicitly through an `Env`
record.  Each definition mirrors one function of the source.
-/

namespace Mcp

/-- Model of the JavaScript `\s` character class (ASCII part). -/
def isSpaceJS (c : Char) : Bool :=
  c = ' ' || c = '\t' || c = '\n' || c = '\r' || c = '\x0b' || c = '\x0c'

/-- The four arithmetic operator symbols of the regexes `[+\-*/]`. -/
def isOpChar (c : Char) : Bool :=
  c = '+' || c = '-' || c = '*' || c = '/'

/-- JS `String.prototype.toLowerCase`, ASCII model. -/
def toLowerL (cs : List Char) : List Char := cs.map Char.toLower

/-- JS `String.prototype.toUpperCase`, ASCII model. -/
def toUpperL (cs : List Char) : List Char := cs.map Char.toUpper

/-- Boolean prefix test on character lists. -/
def prefixB : List Char → List Char → Bool
  | [], _ => true
  | _ :: _, [] => false
  | p :: ps, h :: hs => p = h && prefixB ps hs

/-- Case-insensitive prefix test (used for the `/i` regexes). -/
def ciPrefixB (pat hay : List Char) : Bool :=
  prefixB (toLowerL pat) (toLowerL hay)

/-- JS `String.prototype.includes`: substring occurrence test. -/
def containsL (hay pat : List Char) : Bool :=
  match hay with
  | [] => prefixB pat []
  | _ :: t => prefixB pat hay || containsL t pat

/-- `includes` on `String`s. -/
def containsStr (hay pat : String) : Bool := containsL hay.data pat.data

/-- JS `String.prototype.trim` (remove whitespace at both ends). -/
def trimL (cs : List Char) : List Char :=
  ((cs.dropWhile isSpaceJS).reverse.dropWhile isSpaceJS).reverse

/-- `trim` on `String`s. -/
def trimStr (s : String) : String := ⟨trimL s.data⟩

/-- After an initial digit of `\d+`: skip the rest of the digit run,
then `\s*`, then require an operator, then `\s*`, then a digit.
This is exact for the existence test of `/\d+\s*[+\-*\/]\s*\d+/`:
stopping `\d+` before the end of a digit run can never help, because
the next character would then be a digit, which is neither a space
nor an operator. -/
def digitOpDigitAt (cs : List Char) : Bool :=
  match cs with
  | [] => false
  | c :: rest =>
    c.isDigit &&
      (match (rest.dropWhile Char.isDigit).dropWhile isSpaceJS with
       | o :: rest2 =>
         isOpChar o &&
           (match rest2.dropWhile isSpaceJS with
            | d :: _ => d.isDigit
            | [] => false)
       | [] => false)

/-- `/\d+\s*[+\-*\/]\s*\d+/.test(s)`: the pattern occurs somewhere. -/
def digitOpDigitTest : List Char → Bool
  | [] => false
  | c :: cs => digitOpDigitAt (c :: cs) || digitOpDigitTest cs

/-- The six categories of the `processMessage` cascade
(`mcp.service.ts`, lines 286-319). -/
inductive Category where
  | calculator | weather | textTransform | systemInfo | help | fallback
deriving DecidableEq, Repr

/-- Calculator predicate of the cascade: the lowercased text contains
`calculate` or `math`, or matches `/\d+\s*[+\-*\/]\s*\d+/`. -/
def calcPred (text : String) : Bool :=
  let lower := toLowerL text.data
  containsL lower "calculate".data || containsL lower "math".data ||
    digitOpDigitTest lower

/-- Weather predicate: lowercased text contains `weather`. -/
def weatherPred (text : String) : Bool :=
  containsL (toLowerL text.data) "weather".data

/-- Text-transform predicate: `uppercase`, `lowercase`, `reverse`
or `word count` occurs in the lowercased text. -/
def textPred (text : String) : Bool :=
  let lower := toLowerL text.data
  containsL lower "uppercase".data || containsL lower "lowercase".data ||
    containsL lower "reverse".data || containsL lower "word count".data

/-- System-info predicate: `system` or `server info` occurs. -/
def systemPred (text : String) : Bool :=
  let lower := toLowerL text.data
  containsL lower "system".data || containsL lower "server info".data

/-- Help predicate: `what can you do`, `help` or `capabilities`. -/
def helpPred (text : String) : Bool :=
  let lower := toLowerL text.data
  containsL lower "what can you do".data || containsL lower "help".data ||
    containsL lower "capabilities".data

/-- The dispatch skeleton of `McpService.processMessage`: the
if/else-if cascade in source order. -/
def classify (text : String) : Category :=
  if calcPred text then .calculator
  else if weatherPred text then .weather
  else if textPred text then .textTransform
  else if systemPred text then .systemInfo
  else if helpPred text then .help
  else .fallback

/-- The ordered predicate list of the cascade, as the spec describes
it: calculator, weather, text-transform, system-info, help. -/
def predicateOrder : List ((String → Bool) × Category) :=
  [(calcPred, .calculator), (weatherPred, .weather),
   (textPred, .textTransform), (systemPred, .systemInfo),
   (helpPred, .help)]

/-- Spec-side first-match-wins semantics over an ordered predicate
list, falling through to `fallback`. -/
def firstMatch (ps : List ((String → Bool) × Category)) (text : String) :
    Category :=
  match ps with
  | [] => .fallback
  | (p, cat) :: rest => if p text then cat else firstMatch rest text

/-! ## Session / transport registries (`server.ts`)

`transports` and `sseClients` are plain JS objects keyed by session
id.  They are modelled as association lists with the three object
operations the server uses: property read, property assignment and
`delete`. -/

/-- A JS object keyed by session-id strings. -/
abbrev Registry (α : Type) : Type := List (String × α)

/-- `obj[sid]`: first (and, with unique keys, only) binding. -/
def lookupR {α : Type} (reg : Registry α) (sid : String) : Option α :=
  match reg with
  | [] => none
  | (k, v) :: rest => if k = sid then some v else lookupR rest sid

/-- `delete obj[sid]`: drop every binding of `sid` (a no-op when the
key is absent, exactly as the JS `delete` operator). -/
def removeR {α : Type} (reg : Registry α) (sid : String) : Registry α :=
  reg.filter (fun kv => kv.1 ≠ sid)

/-- `obj[sid] = v`: overwrite or add the binding. -/
def insertR {α : Type} (reg : Registry α) (sid : String) (v : α) :
    Registry α :=
  (sid, v) :: removeR reg sid

/-- The two transport kinds stored in `transports`. -/
inductive Transport where
  | streamableHttp
  | sse
deriving DecidableEq, Repr

/-- An entry of `sseClients`: the response stream of one push (SSE)
connection.  `writeFails` models whether `client.write` throws for
this channel during a broadcast. -/
structure SSEClient where
  writeFails : Bool
deriving DecidableEq, Repr

/-- `broadcastToSSEClients` (`server.ts`, lines 359-368): iterate all
registered push channels; each `write` pair is wrapped in try/catch,
and the catch only logs — the registry is not modified.  The result
records, per channel, whether the event was delivered, together with
the registry as it stands after the broadcast. -/
def broadcastToSSEClients (clients : Registry SSEClient)
    (eventType data : String) : List (String × Bool) × Registry SSEClient :=
  let log := clients.map (fun kv =>
    -- try \x7b write event line; write data line \x7d catch \x7b log \x7d
    (kv.1, !kv.2.writeFails))
  let _ := eventType
  let _ := data
  (log, clients)

/-- Outcome of an HTTP handler, as far as the claims need it. -/
inductive HttpOutcome where
  | badRequest (msg : String)
  | ok (msg : String)
  | delegated
deriving DecidableEq, Repr

/-- `app.delete` handler for `/mcp` (`server.ts`, lines 561-577).
`sessionId` is the `mcp-session-id` header (`none` = absent); the JS
guard `!sessionId` is also true for the empty string. -/
def deleteMcpSession (sessionId : Option String)
    (transports : Registry Transport) : HttpOutcome × Registry Transport :=
  match sessionId with
  | none => (.badRequest "Invalid or missing session ID", transports)
  | some sid =>
    if sid = "" then (.badRequest "Invalid or missing session ID", transports)
    else
      match lookupR transports sid with
      | none => (.badRequest "Invalid or missing session ID", transports)
      | some t =>
        match t with
        | .streamableHttp => (.delegated, transports)
        | .sse => (.ok "Session terminated", removeR transports sid)

/-- The `req.on` close/error cleanup of an SSE push connection
(`server.ts`, lines 400-410): `delete sseClients[sessionId]`. -/
def sseCloseCleanup (sessionId : String) (clients : Registry SSEClient) :
    Registry SSEClient :=
  removeR clients sessionId

/-! ## Tool handlers

JS numbers are modelled as exact rationals and `numToString` stands
for the JS number rendering used inside template strings.  This is an
idealization: it preserves the branch structure, error flags and text
shapes of the handlers, which is all the properties proved below
depend on, but it does not model IEEE-754 binary64 rounding, overflow
to Infinity, or the shortest-round-trip decimal rendering of JS
numbers, so no theorem in this file asserts numeric exactness of the
handlers. -/

/-- Model of JS number-to-string rendering inside templates. -/
def numToString (q : ℚ) : String := toString q

/-- The calculator operations (`z.enum`). -/
inductive CalcOp where
  | add | subtract | multiply | divide
deriving DecidableEq, Repr

/-- Name of a calculator operation as interpolated into the result
templates (`${operation}`). -/
def CalcOp.name : CalcOp → String
  | .add => "add"
  | .subtract => "subtract"
  | .multiply => "multiply"
  | .divide => "divide"

/-- A one-text-item tool response `{ content: [{type:'text', text}],
isError? }`. -/
structure ToolResponse where
  text : String
  isError : Bool
deriving DecidableEq, Repr

/-- The `calculator` branch of `app.post` for `/api/tools/call`
(`server.ts`, lines 674-704): same switch, template
`${a} ${operation} ${b} = ${calcResult}`. -/
def apiCalculator (operation : CalcOp) (a b : ℚ) : ToolResponse :=
  match operation with
  | .add =>
    { text := numToString a ++ " add " ++ numToString b ++ " = "
        ++ numToString (a + b), isError := false }
  | .subtract =>
    { text := numToString a ++ " subtract " ++ numToString b ++ " = "
        ++ numToString (a - b), isError := false }
  | .multiply =>
    { text := numToString a ++ " multiply " ++ numToString b ++ " = "
        ++ numToString (a * b), isError := false }
  | .divide =>
    if b = 0 then
      { text := "Error: Division by zero", isError := true }
    else
      { text := numToString a ++ " divide " ++ numToString b ++ " = "
          ++ numToString (a / b), isError := false }

/-! ### Text processor -/

/-- The text-processor operations shared by both code paths. -/
inductive TextOp where
  | uppercase | lowercase | reverse | wordCount
deriving DecidableEq, Repr

/-- JS `s.split(/\s+/)`: pieces between maximal whitespace runs, with
an empty piece at an end that starts or finishes with whitespace, and
`[""]` on the empty string.  A whitespace character extends the
current separator run when the next character is whitespace too. -/
def jsSplitWS : List Char → List (List Char)
  | [] => [[]]
  | c :: cs =>
    if isSpaceJS c then
      match cs with
      | [] => [[], []]
      | c2 :: _ =>
        if isSpaceJS c2 then jsSplitWS cs
        else [] :: jsSplitWS cs
    else
      match jsSplitWS cs with
      | [] => [[c]]
      | piece :: rest => (c :: piece) :: rest

/-- The MCP-registered `text-processor` tool handler (`server.ts`,
lines 287-307).  Word count splits the **trimmed** text on `/\s+/`. -/
def textProcessorHandler (text : String) (operation : TextOp) :
    ToolResponse :=
  match operation with
  | .uppercase => { text := ⟨toUpperL text.data⟩, isError := false }
  | .lowercase => { text := ⟨toLowerL text.data⟩, isError := false }
  | .reverse => { text := ⟨text.data.reverse⟩, isError := false }
  | .wordCount =>
    { text := "Word count: "
        ++ toString (jsSplitWS (trimL text.data)).length,
      isError := false }

/-- The `text-processor` branch of `/api/tools/call` (`server.ts`,
lines 719-745).  Word count splits the **untrimmed** text on
`/\s+/`; the branch also supports `char-count`, outside the shared
operation set. -/
def apiTextProcessor (text : String) (operation : TextOp) :
    ToolResponse :=
  match operation with
  | .uppercase => { text := ⟨toUpperL text.data⟩, isError := false }
  | .lowercase => { text := ⟨toLowerL text.data⟩, isError := false }
  | .reverse => { text := ⟨text.data.reverse⟩, isError := false }
  | .wordCount =>
    { text := "Word count: " ++ toString (jsSplitWS text.data).length,
      isError := false }

/-! ### Weather -/

/-- The fixed condition strings both weather code paths draw from. -/
def weatherConditions : List String :=
  ["sunny", "cloudy", "rainy", "partly cloudy"]

/-- Random draws made by the server, passed in explicitly: the
simulated temperature and the index into `weatherConditions`
(`Math.floor(Math.random() * 4)` is always in `0..3`). -/
structure Env where
  weatherTemp : ℕ
  weatherCondIdx : Fin 4
  systemInfoText : String
deriving Repr

/-- The `weather` branch of `/api/tools/call` (`server.ts`, lines
706-717), celsius unit as the client façade always requests:
template `Weather in ${city}: ${temp}°C, ${condition}`. -/
def apiWeather (env : Env) (city : String) : ToolResponse :=
  { text := "Weather in " ++ city ++ ": " ++ toString env.weatherTemp
      ++ "°C, " ++ weatherConditions.get (env.weatherCondIdx.cast (by rfl)),
    isError := false }

/-! ## Client façade handlers (`mcp.service.ts`)

The façade's `connectSimple` client routes `callTool` to the REST
endpoint `/api/tools/call`, so the handlers below compose with the
`api*` branches. -/

/-- Character class `[a-zA-Z\s]` of the city capture group. -/
def cityClassChar (c : Char) : Bool := c.isAlpha || isSpaceJS c

/-- The follower `(?:\s|$|[.!?])` after the lazy capture. -/
def followerOk : List Char → Bool
  | [] => true
  | c :: _ => isSpaceJS c || c = '.' || c = '!' || c = '?'

/-- Lazy extension of `([a-zA-Z\s]+?)`: the capture (held reversed in
`acc`) grows one class character at a time until the follower
matches, exactly the order a lazy quantifier explores. -/
def lazyExtend : List Char → List Char → Option (List Char)
  | acc, [] => if followerOk [] then some acc.reverse else none
  | acc, c :: rest2 =>
    if followerOk (c :: rest2) then some acc.reverse
    else if cityClassChar c then lazyExtend (c :: acc) rest2
    else none

/-- The capture group `([a-zA-Z\s]+?)` followed by `(?:\s|$|[.!?])`:
at least one class character, then lazy extension. -/
def captureLazy (cs : List Char) : Option (List Char) :=
  match cs with
  | [] => none
  | c :: rest => if cityClassChar c then lazyExtend [c] rest else none

/-- Backtracking over `\s+`: with `m` the length of the leading
whitespace run, try consuming `j` spaces for `j = m, m-1, …, 1`
(greedy first) and hand the remainder to the continuation `k`. -/
def trySpaceSplits (k : List Char → Option (List Char)) (cs : List Char) :
    Nat → Option (List Char)
  | 0 => none
  | j + 1 => k (cs.drop (j + 1)) <|> trySpaceSplits k cs j

/-- `\s+` followed by continuation `k`, with full backtracking. -/
def spacesPlus (k : List Char → Option (List Char)) (cs : List Char) :
    Option (List Char) :=
  trySpaceSplits k cs (cs.takeWhile isSpaceJS).length

/-- The optional group `(?:in\s+|for\s+)?` followed by the capture,
alternatives in source order. -/
def afterSpacesCont (cs : List Char) : Option (List Char) :=
  (if ciPrefixB "in".data cs then spacesPlus captureLazy (cs.drop 2)
   else none) <|>
  (if ciPrefixB "for".data cs then spacesPlus captureLazy (cs.drop 3)
   else none) <|>
  captureLazy cs

/-- Match of `/weather\s+(?:in\s+|for\s+)?([a-zA-Z\s]+?)(?:\s|$|[.!?])/i`
anchored at the head of `cs`, returning the capture group. -/
def matchWeatherAt (cs : List Char) : Option (List Char) :=
  if ciPrefixB "weather".data cs then spacesPlus afterSpacesCont (cs.drop 7)
  else none

/-- Leftmost match of the city regex over the whole text. -/
def findWeatherCity : List Char → Option (List Char)
  | [] => none
  | c :: cs => matchWeatherAt (c :: cs) <|> findWeatherCity cs

/-- `content.match(cityRegex)` followed by `cityMatch[1].trim()`. -/
def extractCity (content : String) : Option String :=
  (findWeatherCity content.data).map (fun capture => trimStr ⟨capture⟩)

/-- The city `handleWeather` uses: the trimmed capture when the regex
matched, else the fixed placeholder `'New York'`. -/
def weatherCity (content : String) : String :=
  match extractCity content with
  | some c => c
  | none => "New York"

/-- `McpService.handleWeather` (`mcp.service.ts`, lines 357-373):
extract the city, default to `'New York'`, call the weather tool with
celsius and return its text. -/
def handleWeather (env : Env) (content : String) : String :=
  (apiWeather env (weatherCity content)).text

/-! ### Calculator extraction -/

/-- Numeric value of a digit run. -/
def digitsToNat (ds : List Char) : ℕ :=
  ds.foldl (fun n c => 10 * n + (c.toNat - '0'.toNat)) 0

/-- `parseFloat` value of `\d+(?:\.\d+)?` at the head of `cs`,
greedy, returning the value and the rest of the text.  Stopping the
digit runs early can never extend the overall match (the next
character would be a digit, which is neither `.`‑compatible, a space,
nor an operator), so the greedy parse is exact. -/
def parseNumAt (cs : List Char) : Option (ℚ × List Char) :=
  match cs with
  | [] => none
  | c :: _ =>
    if c.isDigit then
      let ds := cs.takeWhile Char.isDigit
      let rest := cs.dropWhile Char.isDigit
      let intVal : ℚ := (digitsToNat ds : ℚ)
      match rest with
      | '.' :: rest2 =>
        let fs := rest2.takeWhile Char.isDigit
        if fs.isEmpty then some (intVal, rest)
        else
          some (intVal + (digitsToNat fs : ℚ) / ((10 : ℚ) ^ fs.length),
            rest2.dropWhile Char.isDigit)
      | _ => some (intVal, rest)
    else none

/-- Match of `/(\d+(?:\.\d+)?)\s*([+\-*\/])\s*(\d+(?:\.\d+)?)/`
anchored at the head of `cs`. -/
def matchCalcAt (cs : List Char) : Option (ℚ × Char × ℚ) := do
  let (a, rest1) ← parseNumAt cs
  match rest1.dropWhile isSpaceJS with
  | [] => none
  | op :: rest3 =>
    if isOpChar op then
      let (b, _) ← parseNumAt (rest3.dropWhile isSpaceJS)
      some (a, op, b)
    else none

/-- Leftmost match of the calculator regex over the whole text. -/
def findCalcMatch : List Char → Option (ℚ × Char × ℚ)
  | [] => none
  | c :: cs => matchCalcAt (c :: cs) <|> findCalcMatch cs

/-- The `operationMap` of `handleCalculator`. -/
def operationMap (c : Char) : Option CalcOp :=
  if c = '+' then some .add
  else if c = '-' then some .subtract
  else if c = '*' then some .multiply
  else if c = '/' then some .divide
  else none

/-- `McpService.handleCalculator` (`mcp.service.ts`, lines 321-355):
extract `a op b`, map the symbol, call the calculator tool and return
its text (including the division-by-zero error text, which the REST
endpoint delivers with HTTP 200). -/
def handleCalculator (content : String) : String :=
  match findCalcMatch content.data with
  | none =>
    "Please provide a calculation in the format \"number operation number\" (e.g., \"5 + 3\")"
  | some (a, op, b) =>
    match operationMap op with
    | none => "Unsupported operation. Use +, -, *, or /"
    | some operation => (apiCalculator operation a b).text

/-! ### Text processing -/

/-- Worker for `removeAllCI`: structural recursion on a fuel that
starts at the text's length; each step consumes at least one
character, so the fuel never runs out. -/
def removeAllCIAux (pat : List Char) : Nat → List Char → List Char
  | 0, _ => []
  | _, [] => []
  | fuel + 1, c :: cs =>
    if pat ≠ [] && ciPrefixB pat (c :: cs) then
      removeAllCIAux pat fuel (cs.drop (pat.length - 1))
    else c :: removeAllCIAux pat fuel cs

/-- `content.replace(/pat/gi, '')`: remove every (leftmost,
non-overlapping) case-insensitive occurrence of `pat`. -/
def removeAllCI (pat cs : List Char) : List Char :=
  removeAllCIAux pat cs.length cs

/-- The stripped operand for one text operation: keyword removed
(case-insensitive, globally), then trimmed. -/
def strippedOperand (keyword : List Char) (content : String) : String :=
  trimStr ⟨removeAllCI keyword content.data⟩

/-- The stripped keyword of each operation, as it appears in the
`replace` calls of `handleTextProcessing`. -/
def keywordOf : TextOp → List Char
  | .uppercase => "uppercase".data
  | .lowercase => "lowercase".data
  | .reverse => "reverse".data
  | .wordCount => "word count".data

/-- The operation `handleTextProcessing` detects: the if/else-if
keyword chain of the source, in source order. -/
def detectedTextOp (content : String) : Option TextOp :=
  let lower := toLowerL content.data
  if containsL lower "uppercase".data then some .uppercase
  else if containsL lower "lowercase".data then some .lowercase
  else if containsL lower "reverse".data then some .reverse
  else if containsL lower "word count".data then some .wordCount
  else none

/-- `McpService.handleTextProcessing` (`mcp.service.ts`, lines
375-410): pick the operation by keyword (uppercase, lowercase,
reverse, word count, in that order), strip the keyword, prompt for
input when the operand is empty, otherwise call the text-processor
tool and return its text. -/
def handleTextProcessing (content : String) : String :=
  let lower := toLowerL content.data
  let run := fun (operation : TextOp) (keyword : List Char) =>
    let text := strippedOperand keyword content
    if text = "" then "Please provide text to process"
    else (apiTextProcessor text operation).text
  if containsL lower "uppercase".data then run .uppercase "uppercase".data
  else if containsL lower "lowercase".data then run .lowercase "lowercase".data
  else if containsL lower "reverse".data then run .reverse "reverse".data
  else if containsL lower "word count".data then run .wordCount "word count".data
  else
    "Please specify the text processing operation: uppercase, lowercase, reverse, or word count"

/-- `McpService.handleSystemInfo`: `contents[0]?.text || 'System info
retrieved'` (the empty string is falsy in JS). -/
def handleSystemInfo (env : Env) : String :=
  if env.systemInfoText = "" then "System info retrieved"
  else env.systemInfoText

/-- An entry of `availableTools` in the façade. -/
structure AvailableTool where
  name : String
  title : Option String
  description : Option String
deriving DecidableEq, Repr

/-- An entry of `availableResources` in the façade. -/
structure AvailableResource where
  uri : String
  name : Option String
  description : Option String
deriving DecidableEq, Repr

/-- JS `x || y` for an optional string (undefined and `''` falsy). -/
def jsOrElse (x : Option String) (y : String) : String :=
  match x with
  | some s => if s = "" then y else s
  | none => y

/-- JS template rendering of a possibly-undefined string. -/
def renderOpt (x : Option String) : String :=
  match x with
  | some s => s
  | none => "undefined"

/-- `McpService.getCapabilitiesHelp` (`mcp.service.ts`, lines
425-446). -/
def getCapabilitiesHelp (tools : List AvailableTool)
    (resources : List AvailableResource) : String :=
  let help := "Here's what I can do:\n\n**Tools:**\n"
  let help := tools.foldl (fun acc tool =>
    acc ++ "• " ++ jsOrElse tool.title tool.name ++ ": "
      ++ renderOpt tool.description ++ "\n") help
  let help := help ++ "\n**Resources:**\n"
  let help := resources.foldl (fun acc r =>
    acc ++ "• " ++ jsOrElse r.name r.uri ++ ": "
      ++ renderOpt r.description ++ "\n") help
  help ++ "\n**Examples:**\n"
    ++ "• \"Calculate 15 + 27\"\n"
    ++ "• \"Weather in London\"\n"
    ++ "• \"Uppercase hello world\"\n"
    ++ "• \"System info\"\n"

/-- `McpService.processMessage` (`mcp.service.ts`, lines 286-319):
the dispatch cascade with its handlers inlined.  `tools` and
`resources` are the capability lists the help branch reads. -/
def processMessage (env : Env) (tools : List AvailableTool)
    (resources : List AvailableResource) (content : String) : String :=
  if calcPred content then handleCalculator content
  else if weatherPred content then handleWeather env content
  else if textPred content then handleTextProcessing content
  else if systemPred content then handleSystemInfo env
  else if helpPred content then getCapabilitiesHelp tools resources
  else
    "I received your message: \"" ++ content
      ++ "\". I can help with calculations, weather info, text processing, and more. Try asking \"what can you do?\" to see my capabilities!"

/-! ## Transcript and chat component state -/

/-- `ChatMessage.sender`. -/
inductive Sender where
  | user | assistant
deriving DecidableEq, Repr

/-- `ChatMessage.type`. -/
inductive MsgType where
  | text | toolResult | error
deriving DecidableEq, Repr

/-- The `ChatMessage` interface of `mcp.service.ts` (timestamps as
abstract naturals). -/
structure ChatMessage where
  id : String
  content : String
  timestamp : ℕ
  sender : Sender
  msgType : MsgType
deriving DecidableEq, Repr

/-- The caller-supplied part of a message
(`Omit ChatMessage id timestamp`). -/
structure MsgData where
  content : String
  sender : Sender
  msgType : MsgType
deriving DecidableEq, Repr

/-- `McpService.addMessage` (`mcp.service.ts`, lines 448-457):
`next([...currentMessages, newMessage])` — the fresh id and timestamp
(`crypto.randomUUID()`, `new Date()`) are passed in explicitly. -/
def addMessage (msgs : List ChatMessage) (d : MsgData) (newId : String)
    (now : ℕ) : List ChatMessage :=
  msgs ++ [{ id := newId, content := d.content, timestamp := now,
             sender := d.sender, msgType := d.msgType }]

/-- `McpService.clearMessages` (`mcp.service.ts`, lines 463-465). -/
def clearMessages (_msgs : List ChatMessage) : List ChatMessage := []

/-- The operations that write `messagesSubject` — `addMessage` and
`clearMessages` are its only writers in the source. -/
inductive TranscriptOp where
  | add (d : MsgData) (newId : String) (now : ℕ)
  | clear
deriving DecidableEq, Repr

/-- Apply one transcript operation. -/
def applyTranscriptOp (msgs : List ChatMessage) :
    TranscriptOp → List ChatMessage
  | .add d newId now => addMessage msgs d newId now
  | .clear => clearMessages msgs

/-- State of `ChatComponent` plus the façade transcript, as far as
`sendMessage` touches it. -/
structure ChatState where
  messages : List ChatMessage
  isConnected : Bool
  isSending : Bool
  currentMessage : String
deriving DecidableEq, Repr

/-- `ChatComponent.sendMessage` up to its first suspension point
(`chat.component.ts`, lines 443-459, composed with the start of
`McpService.sendMessage`): the guard
`!currentMessage.trim() || !isConnected || isSending` silently
returns; otherwise the input is cleared, `isSending` is set, and the
service appends the user message before processing.  The second
component is the message handed to `processMessage` (`none` when the
guard rejected). -/
def startSend (st : ChatState) (newId : String) (now : ℕ) :
    ChatState × Option String :=
  if trimStr st.currentMessage == "" || !st.isConnected || st.isSending then
    (st, none)
  else
    let message := trimStr st.currentMessage
    ({ st with
        currentMessage := "",
        isSending := true,
        messages := addMessage st.messages
          ⟨message, .user, .text⟩ newId now },
      some message)

/-- The resumption of `sendMessage` once `processMessage` resolves:
the service appends the assistant reply (an error message when
processing threw) and the component clears `isSending`. -/
def completeSend (st : ChatState) (reply : String) (replyType : MsgType)
    (newId : String) (now : ℕ) : ChatState :=
  { st with
      messages := addMessage st.messages ⟨reply, .assistant, replyType⟩
        newId now,
      isSending := false }

/-! ## Helper lemmas -/

/-- A list is a `prefixB`-prefix of itself followed by anything. -/
theorem prefixB_self_append (pat post : List Char) :
    prefixB pat (pat ++ post) = true := by
  induction pat with
  | nil => rfl
  | cons c ps ih => simp [prefixB, ih]

/-- A `prefixB`-prefix occurs as a substring. -/
theorem containsL_of_prefixB (hay pat : List Char)
    (h : prefixB pat hay = true) : containsL hay pat = true := by
  cases hay with
  | nil =>
    cases pat with
    | nil => rfl
    | cons c cs => simp [prefixB] at h
  | cons c t => simp [containsL, h]

/-- Any explicit decomposition exhibits a substring occurrence. -/
theorem containsL_append (pre pat post : List Char) :
    containsL (pre ++ (pat ++ post)) pat = true := by
  induction pre with
  | nil => exact containsL_of_prefixB _ _ (prefixB_self_append pat post)
  | cons p pre ih => simp [containsL, ih]

/-- `containsStr` from an explicit decomposition of the data. -/
theorem containsStr_of_data (s pat : String) (l1 l2 : List Char)
    (h : s.data = l1 ++ (pat.data ++ l2)) : containsStr s pat = true := by
  unfold containsStr
  rw [h]
  exact containsL_append _ _ _

/-- Removing an absent key is the identity. -/
theorem removeR_eq_of_lookup_none {α : Type} (reg : Registry α)
    (sid : String) (h : lookupR reg sid = none) : removeR reg sid = reg := by
  induction reg with
  | nil => rfl
  | cons kv rest ih =>
    unfold lookupR at h
    by_cases hk : kv.1 = sid
    · simp [hk] at h
    · simp only [hk, if_false] at h
      have hrest := ih h
      simp only [removeR] at hrest ⊢
      rw [List.filter_cons, hrest]
      simp [hk]

/-- Removing a key twice is the same as removing it once. -/
theorem removeR_idem {α : Type} (reg : Registry α) (sid : String) :
    removeR (removeR reg sid) sid = removeR reg sid := by
  simp [removeR, List.filter_filter]

/-! ## Claims -/

/-- C4: on `DELETE /mcp`, a missing session id, an empty one or an
unknown one each yields the 400 response with the registry untouched
(and the total Lean function returns — no uncaught throw on this
path); the close/error cleanup of a push (SSE) channel for an id that
is not registered is a silent no-op. -/
theorem C4_teardown_unknown_session :
    (∀ transports : Registry Transport,
        deleteMcpSession none transports =
          (.badRequest "Invalid or missing session ID", transports)) ∧
    (∀ transports : Registry Transport,
        deleteMcpSession (some "") transports =
          (.badRequest "Invalid or missing session ID", transports)) ∧
    (∀ (transports : Registry Transport) (sid : String),
        lookupR transports sid = none →
          deleteMcpSession (some sid) transports =
            (.badRequest "Invalid or missing session ID", transports)) ∧
    (∀ (clients : Registry SSEClient) (sid : String),
        lookupR clients sid = none → sseCloseCleanup sid clients = clients) :=
  ⟨fun _ => rfl,
   fun _ => rfl,
   fun transports sid h => by
     unfold deleteMcpSession
     by_cases hs : sid = ""
     · simp [hs]
     · simp [hs, h],
   fun clients sid h => removeR_eq_of_lookup_none clients sid h⟩

/-- Witness for C4 at concrete inputs. -/
theorem C4_teardown_unknown_session_witness :
    lookupR ([("a", Transport.sse)] : Registry Transport) "zz" = none ∧
    deleteMcpSession (some "zz") [("a", Transport.sse)] =
      (.badRequest "Invalid or missing session ID",
        [("a", Transport.sse)]) ∧
    lookupR ([("c1", ⟨false⟩)] : Registry SSEClient) "zz" = none ∧
    sseCloseCleanup "zz" [("c1", ⟨false⟩)] = [("c1", ⟨false⟩)] :=
  ⟨by decide,
   C4_teardown_unknown_session.2.2.1 [("a", Transport.sse)] "zz" (by decide),
   by decide,
   C4_teardown_unknown_session.2.2.2 [("c1", ⟨false⟩)] "zz" (by decide)⟩

/-- C5: removal from the transport registry is idempotent — removing
an id with no entry leaves the registry unchanged (and raises no
error: the operation is total), and removing twice equals removing
once. -/
theorem C5_remove_idempotent :
    (∀ (α : Type) (reg : Registry α) (sid : String),
        lookupR reg sid = none → removeR reg sid = reg) ∧
    (∀ (α : Type) (reg : Registry α) (sid : String),
        removeR (removeR reg sid) sid = removeR reg sid) :=
  ⟨fun _ reg sid h => removeR_eq_of_lookup_none reg sid h,
   fun _ reg sid => removeR_idem reg sid⟩

/-- Witness for C5 at a concrete registry. -/
theorem C5_remove_idempotent_witness :
    lookupR ([("a", Transport.streamableHttp)] : Registry Transport) "x" =
      none ∧
    removeR ([("a", Transport.streamableHttp)] : Registry Transport) "x" =
      [("a", Transport.streamableHttp)] :=
  ⟨by decide,
   C5_remove_idempotent.1 Transport [("a", Transport.streamableHttp)] "x"
     (by decide)⟩

/-- C9: the transcript is append-only — every transcript operation
either appends exactly one message at the end, leaving every existing
message unchanged and in place, or is the explicit clear, which
empties the list. -/
theorem C9_transcript_append_only :
    ∀ (msgs : List ChatMessage) (op : TranscriptOp),
      (∃ m, applyTranscriptOp msgs op = msgs ++ [m]) ∨
        (op = .clear ∧ applyTranscriptOp msgs op = []) := by
  intro msgs op
  cases op with
  | add d newId now =>
    exact Or.inl ⟨_, rfl⟩
  | clear =>
    exact Or.inr ⟨rfl, rfl⟩

/-- C1 counterexample: with two registered push channels of which the
first fails to write, the broadcast still delivers to the second, but
the failing channel is **still present** in the registry afterwards —
`broadcastToSSEClients` only logs the caught error and never removes
the channel, so the claim's removal clause is false. -/
theorem C1_counterexample :
    (broadcastToSSEClients [("s1", ⟨true⟩), ("s2", ⟨false⟩)] "time-update"
        "d").1 = [("s1", false), ("s2", true)] ∧
    ¬ lookupR (broadcastToSSEClients [("s1", ⟨true⟩), ("s2", ⟨false⟩)]
        "time-update" "d").2 "s1" = none := by
  constructor
  · rfl
  · intro h
    simp [broadcastToSSEClients, lookupR] at h

/-- C1 amended: a broadcast in which some channels' writes throw
still delivers the event to every channel whose write succeeds, and
leaves the registry of push channels exactly unchanged — in
particular the failing channel is still registered afterwards. -/
theorem C1_broadcast_continues_registry_unchanged :
    ∀ (clients : Registry SSEClient) (eventType data : String),
      (broadcastToSSEClients clients eventType data).2 = clients ∧
      ∀ sid c, (sid, c) ∈ clients → c.writeFails = false →
        (sid, true) ∈ (broadcastToSSEClients clients eventType data).1 := by
  intro clients eventType data
  refine ⟨rfl, ?_⟩
  intro sid c hmem hok
  have h := List.mem_map_of_mem
    (fun kv : String × SSEClient => (kv.1, !kv.2.writeFails)) hmem
  simpa [broadcastToSSEClients, hok] using h

/-- Witness for C1 amended at a concrete registry. -/
theorem C1_broadcast_witness :
    ("s2", SSEClient.mk false) ∈
      ([("s1", ⟨true⟩), ("s2", ⟨false⟩)] : Registry SSEClient) ∧
    ("s2", true) ∈ (broadcastToSSEClients
      [("s1", ⟨true⟩), ("s2", ⟨false⟩)] "time-update" "d").1 :=
  ⟨by decide,
   (C1_broadcast_continues_registry_unchanged
     [("s1", ⟨true⟩), ("s2", ⟨false⟩)] "time-update" "d").2
     "s2" ⟨false⟩ (by decide) rfl⟩

/-- C2: the classifier is the deterministic first-match-wins cascade
over the ordered predicate list calculator, weather, text-transform,
system-info, help, fallback; in particular any text matching both the
calculator and the weather predicate classifies as calculator. -/
theorem C2_classify_first_match :
    (∀ text, classify text = firstMatch predicateOrder text) ∧
    (∀ text, calcPred text = true → weatherPred text = true →
      classify text = .calculator) := by
  constructor
  · intro text
    rfl
  · intro text h1 _
    simp [classify, h1]

/-- Witness for C2 on a text matching both predicates. -/
theorem C2_classify_first_match_witness :
    calcPred "calculate the weather" = true ∧
    weatherPred "calculate the weather" = true ∧
    classify "calculate the weather" = .calculator :=
  ⟨by decide, by decide,
   C2_classify_first_match.2 "calculate the weather" (by decide) (by decide)⟩

/-- C10 counterexample: on the input `' hello'` with operation
word-count, the MCP tool handler (which trims before splitting)
reports 1 word while the REST branch (which does not trim) reports 2,
so the two code paths are not equivalent on the shared operation
set. -/
theorem C10_counterexample :
    textProcessorHandler " hello" .wordCount ≠
      apiTextProcessor " hello" .wordCount := by
  decide

/-- C10 amended: the two text-processor implementations agree on
uppercase, lowercase and reverse for every input; for word-count they
agree on every input without leading or trailing whitespace (inputs
equal to their own trim). -/
theorem C10_text_processor_equiv :
    ∀ text : String,
      textProcessorHandler text .uppercase = apiTextProcessor text .uppercase ∧
      textProcessorHandler text .lowercase = apiTextProcessor text .lowercase ∧
      textProcessorHandler text .reverse = apiTextProcessor text .reverse ∧
      (trimStr text = text →
        textProcessorHandler text .wordCount =
          apiTextProcessor text .wordCount) := by
  intro text
  refine ⟨rfl, rfl, rfl, ?_⟩
  intro h
  have hdata : trimL text.data = text.data := by
    have := congrArg String.data h
    simpa [trimStr] using this
  simp [textProcessorHandler, apiTextProcessor, hdata]

/-- Witness for C10 amended at a trimmed input. -/
theorem C10_text_processor_equiv_witness :
    trimStr "hello world" = "hello world" ∧
    textProcessorHandler "hello world" .wordCount =
      apiTextProcessor "hello world" .wordCount :=
  ⟨by decide,
   (C10_text_processor_equiv "hello world").2.2.2 (by decide)⟩

/-- C6: whenever a text operation is detected, the operation keyword
is stripped (case-insensitively, globally) and trimmed to form the
operand; an empty operand yields the prompt-for-input message instead
of a tool call; and end-to-end, `"uppercase hello world"` processes
to exactly `"HELLO WORLD"`. -/
theorem C6_text_transform :
    (∀ content op, detectedTextOp content = some op →
        handleTextProcessing content =
          (if strippedOperand (keywordOf op) content = "" then
            "Please provide text to process"
          else (apiTextProcessor (strippedOperand (keywordOf op) content)
              op).text)) ∧
    handleTextProcessing "uppercase   " = "Please provide text to process" ∧
    (∀ env tools resources,
        processMessage env tools resources "uppercase hello world" =
          "HELLO WORLD") := by
  refine ⟨?_, rfl, fun env tools resources => rfl⟩
  intro content op h
  unfold detectedTextOp at h
  unfold handleTextProcessing
  by_cases h1 : containsL (toLowerL content.data) "uppercase".data = true
  · simp only [h1, if_pos, if_true] at h ⊢
    cases h
    rfl
  · simp only [h1, if_neg, if_false] at h ⊢
    by_cases h2 : containsL (toLowerL content.data) "lowercase".data = true
    · simp only [h2, if_pos, if_true] at h ⊢
      cases h
      rfl
    · simp only [h2, if_neg, if_false] at h ⊢
      by_cases h3 : containsL (toLowerL content.data) "reverse".data = true
      · simp only [h3, if_pos, if_true] at h ⊢
        cases h
        rfl
      · simp only [h3, if_neg, if_false] at h ⊢
        by_cases h4 :
            containsL (toLowerL content.data) "word count".data = true
        · simp only [h4, if_pos, if_true] at h ⊢
          cases h
          rfl
        · simp only [h4, if_neg, if_false] at h
          cases h

/-- Witness for C6 on a detected operation. -/
theorem C6_text_transform_witness :
    detectedTextOp "uppercase hello world" = some .uppercase ∧
    handleTextProcessing "uppercase hello world" =
      (if strippedOperand (keywordOf .uppercase) "uppercase hello world"
          = "" then "Please provide text to process"
      else (apiTextProcessor
          (strippedOperand (keywordOf .uppercase) "uppercase hello world")
          .uppercase).text) :=
  ⟨by decide,
   C6_text_transform.1 "uppercase hello world" .uppercase (by decide)⟩

/-- C7: the weather handler uses the city captured after the
`weather (in|for)?` pattern, trimmed, defaulting to the placeholder
`'New York'` when extraction fails; its reply always mentions the
city used and one of the four fixed condition strings; and
`"weather in Paris"` extracts `"Paris"`, classifies as weather, and
its end-to-end reply mentions `"Paris"`. -/
theorem C7_weather_city_and_condition :
    (∀ content, extractCity content = none →
        weatherCity content = "New York") ∧
    (∀ env content,
        containsStr (handleWeather env content) (weatherCity content)
          = true) ∧
    (∀ env content, ∃ cond, cond ∈ weatherConditions ∧
        containsStr (handleWeather env content) cond = true) ∧
    weatherCity "weather in Paris" = "Paris" ∧
    classify "weather in Paris" = .weather ∧
    (∀ env tools resources,
        containsStr (processMessage env tools resources "weather in Paris")
          "Paris" = true) := by
  have hcity : ∀ env content,
      containsStr (handleWeather env content) (weatherCity content)
        = true := by
    intro env content
    exact containsStr_of_data _ _ "Weather in ".data
      ((": " ++ toString env.weatherTemp ++ "°C, "
        ++ weatherConditions.get (env.weatherCondIdx.cast (by rfl))).data)
      (by simp [handleWeather, apiWeather, String.data_append])
  have hparis : weatherCity "weather in Paris" = "Paris" := by decide
  refine ⟨?_, hcity, ?_, hparis, by decide, ?_⟩
  · intro content h
    simp [weatherCity, h]
  · intro env content
    refine ⟨weatherConditions.get (env.weatherCondIdx.cast (by rfl)),
      List.get_mem _ _ _, ?_⟩
    exact containsStr_of_data _ _
      (("Weather in " ++ weatherCity content ++ ": "
        ++ toString env.weatherTemp ++ "°C, ").data) []
      (by simp [handleWeather, apiWeather, String.data_append])
  · intro env tools resources
    have heq : processMessage env tools resources "weather in Paris" =
        handleWeather env "weather in Paris" := rfl
    rw [heq]
    have h2 := hcity env "weather in Paris"
    rw [hparis] at h2
    exact h2

/-- Witness for C7 on a text where city extraction fails. -/
theorem C7_weather_witness :
    extractCity "hello there" = none ∧
    weatherCity "hello there" = "New York" :=
  ⟨by decide,
   C7_weather_city_and_condition.1 "hello there" (by decide)⟩

/-- C8 counterexample: at a disconnected state with a non-empty
input, `sendMessage` returns with the transcript entirely unchanged —
no user-visible error message is appended, contradicting the claim
that the rejection adds one. -/
theorem C8_counterexample :
    startSend ⟨[], false, false, "hello"⟩ "id0" 0 =
      (⟨[], false, false, "hello"⟩, none) ∧
    ¬ ∃ err : ChatMessage,
        (startSend ⟨[], false, false, "hello"⟩ "id0" 0).1.messages =
          [] ++ [err] := by
  refine ⟨by decide, ?_⟩
  rintro ⟨err, h⟩
  have hm : (startSend ⟨[], false, false, "hello"⟩ "id0" 0).1.messages =
      [] := by decide
  rw [hm] at h
  simp at h

/-- C8 amended: `sendMessage` while not connected, or while a prior
send is in flight, is a silent no-op — the state (and so the
transcript) is left entirely unchanged and no send starts; a send
only starts from a state with no send in flight, marks one in flight,
and appends exactly the user message; completion clears the
in-flight flag — so at most one send is outstanding at any time. -/
theorem C8_send_rejected_silently :
    (∀ (st : ChatState) (newId : String) (now : ℕ),
        st.isConnected = false → startSend st newId now = (st, none)) ∧
    (∀ (st : ChatState) (newId : String) (now : ℕ),
        st.isSending = true → startSend st newId now = (st, none)) ∧
    (∀ (st : ChatState) (newId : String) (now : ℕ) st2 msg,
        startSend st newId now = (st2, some msg) →
          st.isSending = false ∧ st2.isSending = true ∧
          st2.messages = st.messages ++ [⟨newId, msg, now, .user, .text⟩]) ∧
    (∀ (st : ChatState) (reply : String) (rt : MsgType) (newId : String)
        (now : ℕ),
        (completeSend st reply rt newId now).isSending = false) := by
  refine ⟨?_, ?_, ?_, fun _ _ _ _ _ => rfl⟩
  · intro st newId now h
    simp [startSend, h]
  · intro st newId now h
    simp [startSend, h]
  · intro st newId now st2 msg h
    unfold startSend at h
    by_cases hg : (trimStr st.currentMessage == "" || !st.isConnected
        || st.isSending) = true
    · rw [if_pos hg] at h
      cases h
    · rw [if_neg hg] at h
      have hsend : st.isSending = false := by
        simp only [Bool.or_eq_true] at hg
        push_neg at hg
        simpa using hg.2
      obtain ⟨h1, h2⟩ := Prod.mk.injEq .. ▸ h
      refine ⟨hsend, ?_, ?_⟩
      · rw [← h1]
      · rw [← h1]
        cases h2
        rfl

/-- Witness for C8 amended, at a disconnected state and at a
successful send. -/
theorem C8_send_rejected_silently_witness :
    (ChatState.isConnected ⟨[], false, false, "hello"⟩ = false ∧
      startSend ⟨[], false, false, "hello"⟩ "id0" 0 =
        (⟨[], false, false, "hello"⟩, none)) ∧
    (startSend ⟨[], true, false, "hi"⟩ "id1" 5 =
        (⟨[⟨"id1", "hi", 5, .user, .text⟩], true, true, ""⟩, some "hi") ∧
      ChatState.isSending ⟨[], true, false, "hi"⟩ = false ∧
      ChatState.isSending ⟨[⟨"id1", "hi", 5, .user, .text⟩], true, true, ""⟩
        = true ∧
      ([⟨"id1", "hi", 5, .user, .text⟩] : List ChatMessage) =
        [] ++ [⟨"id1", "hi", 5, .user, .text⟩]) :=
  ⟨⟨rfl, C8_send_rejected_silently.1 ⟨[], false, false, "hello"⟩ "id0" 0 rfl⟩,
   ⟨by decide,
    (C8_send_rejected_silently.2.2.1 ⟨[], true, false, "hi"⟩ "id1" 5
        ⟨[⟨"id1", "hi", 5, .user, .text⟩], true, true, ""⟩ "hi"
        (by decide)).1,
    (C8_send_rejected_silently.2.2.1 ⟨[], true, false, "hi"⟩ "id1" 5
        ⟨[⟨"id1", "hi", 5, .user, .text⟩], true, true, ""⟩ "hi"
        (by decide)).2.1,
    (C8_send_rejected_silently.2.2.1 ⟨[], true, false, "hi"⟩ "id1" 5
        ⟨[⟨"id1", "hi", 5, .user, .text⟩], true, true, ""⟩ "hi"
        (by decide)).2.2⟩⟩

end Mcp
